import Mathlib

/-!
# Verification of the EduMate multi-agent comic pipeline

Shallow embedding, in Lean 4, of the parts of the EduMate repository that the
frozen claims speak about:

* `agents.py` — the four agents, their shared `execute` shape, and
  `MultiStepAgentOrchestrator.execute_workflow`;
* `GenerateComicAgentic.py` — `add_line_breaks`, the image-path map built by
  the rendering driver, and the assembly tail of `start`;
* `database.py` — status writes and agent-log writes are modelled as events
  appended to explicit traces.

External backends (Gemini text generation, Imagen, the TiDB datastore) are
modelled as oracles: either total functions (for runs in which they do not
raise) or `Except String`-valued fields of an oracle structure, where
`Except.error e` models a Python call raising an exception with message `e`.
Wall-clock execution times are not modelled (the claims do not mention them).
-/

namespace EduMate

/-! ## Data model (spec §3, `agents.py`) -/

/-- One dialogue line of a scene: `{'character': ..., 'dialogue': ...}`. -/
structure Dialogue where
  character : String
  dialogue : String
deriving DecidableEq

/-- A parsed scene: `{'scene_number': ..., 'dialogues': [...]}`. -/
structure Scene where
  scene_number : Nat
  dialogues : List Dialogue
deriving DecidableEq

/-! ## `ContentIntelligenceAgent._parse_educational_content` (agents.py 117–143) -/

/-- Python `line.split(':', 1)`: split at the first colon only.  On a string
with no colon this returns the one-element list, like Python. -/
def splitFirstColon (line : String) : List String :=
  match line.splitOn ":" with
  | [] => [line]
  | [a] => [a]
  | a :: rest => [a, String.intercalate ":" rest]

/-- The `if current_scene: scenes.append(current_scene)` flush used both when a
new `SCENE` marker is seen and at the end of the parse. -/
def flushScene (st : List Scene × Option Scene) : List Scene :=
  match st.2 with
  | some sc => st.1 ++ [sc]
  | none => st.1

/-- The body of the `for line in lines` loop of `_parse_educational_content`
applied to the already-stripped line (Python does `line = line.strip()` first;
see `parseStep`).  State is `(scenes, current_scene)`, `current_scene = none`
models Python's `None`. -/
def parseLine (st : List Scene × Option Scene) (line : String) :
    List Scene × Option Scene :=
  if line.startsWith "SCENE" then
    -- flush the current scene, then open a new one numbered `len(scenes) + 1`
    (flushScene st, some { scene_number := (flushScene st).length + 1, dialogues := [] })
  else
    match st.2 with
    | none => st
    | some sc =>
      if line.contains ':' then
        if line.startsWith "CHARACTERS:" || line.startsWith "EDUCATIONAL_SUMMARY:" then
          st
        else
          match splitFirstColon line with
          | [c, d] =>
            (st.1, some { sc with
              dialogues := sc.dialogues ++ [{ character := c.trim, dialogue := d.trim }] })
          | _ => st
      else st

/-- One iteration of the parse loop: `line = line.strip()` then the branch
logic. -/
def parseStep (st : List Scene × Option Scene) (rawLine : String) :
    List Scene × Option Scene :=
  parseLine st rawLine.trim

/-- `_parse_educational_content`: split the script on newlines, fold the loop
body over the lines, and flush the last open scene.  Total by construction —
the Python body indexes nothing and cannot raise on any input string. -/
def parse_educational_content (content : String) : List Scene :=
  let st := (content.splitOn "\n").foldl parseStep ([], none)
  flushScene st

/-- Numbering invariant carried through the parse fold: the flushed scenes are
numbered `1..len` in order, and the open scene (if any) is numbered
`len + 1`. -/
def SceneNumbering (st : List Scene × Option Scene) : Prop :=
  st.1.map Scene.scene_number = List.range' 1 st.1.length ∧
  ∀ sc ∈ st.2, sc.scene_number = st.1.length + 1

theorem flushScene_numbering {st : List Scene × Option Scene}
    (h : SceneNumbering st) :
    (flushScene st).map Scene.scene_number = List.range' 1 (flushScene st).length := by
  obtain ⟨h1, h2⟩ := h
  unfold flushScene
  cases hcur : st.2 with
  | none => simpa using h1
  | some sc =>
    have hn := h2 sc (by simp [hcur])
    have hconcat : List.range' 1 (st.1.length + 1) =
        List.range' 1 st.1.length ++ [st.1.length + 1] := by
      simpa [Nat.one_mul, Nat.add_comm] using @List.range'_concat 1 1 st.1.length
    simp [h1, hn, hconcat]

/-- Each loop step either flushes and opens a fresh scene numbered
`flushed.length + 1`, or leaves the flushed list untouched and preserves the
open scene's number. -/
theorem parseLine_cases (st : List Scene × Option Scene) (line : String) :
    parseLine st line =
      (flushScene st, some { scene_number := (flushScene st).length + 1, dialogues := [] }) ∨
    ((parseLine st line).1 = st.1 ∧
      Option.map Scene.scene_number (parseLine st line).2 =
        Option.map Scene.scene_number st.2) := by
  unfold parseLine
  by_cases hS : line.startsWith "SCENE" = true
  · rw [if_pos hS]
    exact Or.inl rfl
  · rw [if_neg hS]
    cases hcur : st.2 with
    | none => exact Or.inr ⟨rfl, by rw [hcur]⟩
    | some sc =>
      dsimp only
      by_cases hc : line.contains ':' = true
      · rw [if_pos hc]
        by_cases hh : (line.startsWith "CHARACTERS:" ||
            line.startsWith "EDUCATIONAL_SUMMARY:") = true
        · rw [if_pos hh]
          exact Or.inr ⟨rfl, by rw [hcur]⟩
        · rw [if_neg hh]
          cases hp : splitFirstColon line with
          | nil => exact Or.inr ⟨rfl, by rw [hcur]⟩
          | cons c rest =>
            cases rest with
            | nil => exact Or.inr ⟨rfl, by rw [hcur]⟩
            | cons d rest2 =>
              cases rest2 with
              | nil => exact Or.inr ⟨rfl, by simp⟩
              | cons e rest3 => exact Or.inr ⟨rfl, by rw [hcur]⟩
      · rw [if_neg hc]
        exact Or.inr ⟨rfl, by rw [hcur]⟩

theorem parseStep_numbering {st : List Scene × Option Scene} (line : String)
    (h : SceneNumbering st) : SceneNumbering (parseStep st line) := by
  unfold parseStep
  rcases parseLine_cases st line.trim with heq | ⟨hfst, hsnd⟩
  · rw [heq]
    refine ⟨flushScene_numbering h, ?_⟩
    intro sc hsc
    simp only [Option.mem_def, Option.some.injEq] at hsc
    subst hsc
    rfl
  · refine ⟨by rw [hfst]; exact h.1, ?_⟩
    intro sc hsc
    rw [Option.mem_def] at hsc
    have hmap : Option.map Scene.scene_number st.2 = some sc.scene_number := by
      rw [← hsnd, hsc, Option.map_some']
    cases hst : st.2 with
    | none => rw [hst] at hmap; simp at hmap
    | some sc' =>
      rw [hst, Option.map_some', Option.some.injEq] at hmap
      rw [hfst, ← hmap]
      exact h.2 sc' (by simp [hst])

theorem foldl_parseStep_numbering (lines : List String)
    (st : List Scene × Option Scene) (h : SceneNumbering st) :
    SceneNumbering (lines.foldl parseStep st) := by
  induction lines generalizing st with
  | nil => exact h
  | cons l ls ih =>
    rw [List.foldl_cons]
    exact ih _ (parseStep_numbering l h)

/-- C10 — the parser numbers scenes `1..N` by position: the `scene_number`
values of the parsed scene list are exactly `[1, 2, ..., N]` (unique,
contiguous, strictly increasing), for *every* input string, independent of any
numbering text inside the script.  The embedding is a total function, which is
the shallow form of "parsing never raises". -/
theorem c10_parse_scene_numbers (content : String) :
    (parse_educational_content content).map Scene.scene_number =
      List.range' 1 (parse_educational_content content).length := by
  unfold parse_educational_content
  exact flushScene_numbering
    (foldl_parseStep_numbering (content.splitOn "\n") ([], none) ⟨by simp, by simp⟩)

end EduMate

namespace EduMate

/-! ## `GenerateComicAgentic.add_line_breaks` (GenerateComicAgentic.py 156–171) -/

/-- The whitespace characters Python's `str.split()` with no separator splits
on, over the character range the repository handles (space, tab, newline,
carriage return, vertical tab, form feed). -/
def pyIsSpace (c : Char) : Bool :=
  c = ' ' || c = '\t' || c = '\n' || c = '\r' || c = Char.ofNat 11 || c = Char.ofNat 12

/-- Worker for `pySplit`: `acc` holds the characters of the word currently
being read, in reverse. -/
def pySplitAux : List Char → List Char → List (List Char)
  | [], acc => if acc.isEmpty then [] else [acc.reverse]
  | c :: cs, acc =>
    if pyIsSpace c then
      if acc.isEmpty then pySplitAux cs []
      else acc.reverse :: pySplitAux cs []
    else pySplitAux cs (c :: acc)

/-- Python `text.split()`: split on runs of whitespace, dropping empty
pieces. -/
def pySplit (s : List Char) : List (List Char) := pySplitAux s []

/-- The loop of `add_line_breaks`: `new_text += word` followed by
`'\n'` when `(i+1) % 7 == 0`, else `' '`, for `i` the running 0-based word
index. -/
def addLineBreaksAux : Nat → List (List Char) → List Char
  | _, [] => []
  | i, w :: ws =>
    w ++ (if (i + 1) % 7 == 0 then ['\n'] else [' ']) ++ addLineBreaksAux (i + 1) ws

/-- `GenerateComicAgentic.add_line_breaks`: split into words, then re-join,
appending `'\n'` after every 7th word and `' '` after every other word. -/
def add_line_breaks (text : List Char) : List Char :=
  addLineBreaksAux 0 (pySplit text)

theorem pySplitAux_no_space :
    ∀ (s acc : List Char), (∀ c ∈ acc, pyIsSpace c = false) →
      ∀ w ∈ pySplitAux s acc, ∀ c ∈ w, pyIsSpace c = false := by
  intro s
  induction s with
  | nil =>
    intro acc hacc w hw
    unfold pySplitAux at hw
    by_cases he : acc.isEmpty
    · simp [he] at hw
    · simp [he] at hw
      subst hw
      intro c hc
      exact hacc c (List.mem_reverse.mp hc)
  | cons c cs ih =>
    intro acc hacc w hw
    unfold pySplitAux at hw
    by_cases hsp : pyIsSpace c
    · rw [if_pos hsp] at hw
      by_cases he : acc.isEmpty
      · rw [if_pos he] at hw
        exact ih [] (by simp) w hw
      · rw [if_neg he] at hw
        rcases List.mem_cons.mp hw with hw | hw
        · subst hw
          intro x hx
          exact hacc x (List.mem_reverse.mp hx)
        · exact ih [] (by simp) w hw
    · rw [if_neg hsp] at hw
      refine ih (c :: acc) ?_ w hw
      intro x hx
      rcases List.mem_cons.mp hx with hx | hx
      · subst hx
        exact Bool.not_eq_true _ ▸ (by simpa using hsp)
      · exact hacc x hx

theorem pySplitAux_ne_nil :
    ∀ (s acc : List Char), ∀ w ∈ pySplitAux s acc, w ≠ [] := by
  intro s
  induction s with
  | nil =>
    intro acc w hw
    unfold pySplitAux at hw
    by_cases he : acc.isEmpty
    · simp [he] at hw
    · simp [he] at hw
      subst hw
      simpa [List.isEmpty_iff] using he
  | cons c cs ih =>
    intro acc w hw
    unfold pySplitAux at hw
    by_cases hsp : pyIsSpace c
    · rw [if_pos hsp] at hw
      by_cases he : acc.isEmpty
      · rw [if_pos he] at hw
        exact ih [] w hw
      · rw [if_neg he] at hw
        rcases List.mem_cons.mp hw with hw | hw
        · subst hw
          simpa [List.isEmpty_iff] using he
        · exact ih [] w hw
    · rw [if_neg hsp] at hw
      exact ih (c :: acc) w hw

/-- Words of `pySplit` contain no whitespace, hence no `'\n'`. -/
theorem pySplit_no_space (s : List Char) :
    ∀ w ∈ pySplit s, ∀ c ∈ w, pyIsSpace c = false :=
  pySplitAux_no_space s [] (by simp)

theorem pySplit_ne_nil (s : List Char) : ∀ w ∈ pySplit s, w ≠ [] :=
  pySplitAux_ne_nil s []

/-- Joining a word list with single spaces *between* words (no trailing
separator). -/
def joinSp : List (List Char) → List Char
  | [] => []
  | [w] => w
  | w :: ws => w ++ ' ' :: joinSp ws

theorem addLineBreaksAux_append (a b : List (List Char)) :
    ∀ i, addLineBreaksAux i (a ++ b) =
      addLineBreaksAux i a ++ addLineBreaksAux (i + a.length) b := by
  induction a with
  | nil => intro i; simp [addLineBreaksAux]
  | cons w ws ih =>
    intro i
    simp only [List.cons_append, addLineBreaksAux, List.length_cons, List.append_eq,
      ih (i + 1), List.append_assoc]
    have hidx : i + (ws.length + 1) = i + 1 + ws.length := by omega
    rw [hidx]

/-- On a block of at most 7 words ending exactly at a multiple-of-7 word index,
the loop joins the words with single spaces and appends one `'\n'`. -/
theorem addLineBreaksAux_block :
    ∀ (ws : List (List Char)) (i : Nat), ws ≠ [] → ws.length ≤ 7 →
      (i + ws.length) % 7 = 0 →
      addLineBreaksAux i ws = joinSp ws ++ ['\n'] := by
  intro ws
  induction ws with
  | nil => intro i h; exact absurd rfl h
  | cons w tail ih =>
    intro i _ hlen hmod
    cases tail with
    | nil =>
      have h7 : (i + 1) % 7 = 0 := by simpa using hmod
      simp [addLineBreaksAux, joinSp, h7]
    | cons v rest =>
      have hne7 : ¬ ((i + 1) % 7 = 0) := by
        simp only [List.length_cons] at hlen hmod
        omega
      have hif : ((i + 1) % 7 == 0) = false := by simpa using hne7
      have hrec := ih (i + 1) (by simp) (by simp at hlen ⊢; omega)
        (by simp at hmod ⊢; omega)
      show (w ++ (if ((i + 1) % 7 == 0) = true then ['\n'] else [' '])) ++
          addLineBreaksAux (i + 1) (v :: rest) = (w ++ ' ' :: joinSp (v :: rest)) ++ ['\n']
      rw [hif, hrec]
      simp

theorem newline_not_mem_joinSp :
    ∀ (ws : List (List Char)), (∀ w ∈ ws, ∀ c ∈ w, pyIsSpace c = false) →
      '\n' ∉ joinSp ws := by
  intro ws
  induction ws with
  | nil => intro _; simp [joinSp]
  | cons w tail ih =>
    intro h
    cases tail with
    | nil =>
      intro hmem
      have := h w (by simp) '\n' (by simpa [joinSp] using hmem)
      simp [pyIsSpace] at this
    | cons v rest =>
      intro hmem
      simp only [joinSp, List.mem_append, List.mem_cons] at hmem
      rcases hmem with hmem | hmem | hmem
      · have := h w (by simp) '\n' hmem
        simp [pyIsSpace] at this
      · exact absurd hmem.symm (by decide)
      · exact ih (fun u hu => h u (by simp [hu])) hmem

theorem pySplitAux_chunk :
    ∀ (w s acc : List Char), (∀ c ∈ w, pyIsSpace c = false) →
      pySplitAux (w ++ s) acc = pySplitAux s (w.reverse ++ acc) := by
  intro w
  induction w with
  | nil => intro s acc _; simp
  | cons c w' ih =>
    intro s acc h
    have hc : pyIsSpace c = false := h c (by simp)
    simp only [List.cons_append, pySplitAux, hc, Bool.false_eq_true, if_false,
      List.reverse_cons, List.append_assoc, List.singleton_append]
    exact ih s (c :: acc) (fun x hx => h x (by simp [hx]))

/-- Splitting a space-joined list of nonempty whitespace-free words recovers
the words. -/
theorem pySplit_joinSp :
    ∀ (ws : List (List Char)), (∀ w ∈ ws, w ≠ []) →
      (∀ w ∈ ws, ∀ c ∈ w, pyIsSpace c = false) →
      pySplit (joinSp ws) = ws := by
  intro ws
  induction ws with
  | nil => intro _ _; rfl
  | cons w tail ih =>
    intro hne hsp
    have hwne : w ≠ [] := hne w (by simp)
    have hwsp : ∀ c ∈ w, pyIsSpace c = false := hsp w (by simp)
    cases tail with
    | nil =>
      show pySplitAux (joinSp [w]) [] = [w]
      have : joinSp [w] = w ++ [] := by simp [joinSp]
      rw [this, pySplitAux_chunk w [] [] hwsp]
      simp [pySplitAux, List.isEmpty_iff, hwne]
    | cons v rest =>
      show pySplitAux (joinSp (w :: v :: rest)) [] = w :: v :: rest
      have hj : joinSp (w :: v :: rest) = w ++ ' ' :: joinSp (v :: rest) := rfl
      rw [hj, pySplitAux_chunk w _ [] hwsp]
      have hsp' : pyIsSpace ' ' = true := by decide
      have hwrev : (w.reverse ++ []).isEmpty = false := by
        simp [List.isEmpty_iff, hwne]
      simp only [pySplitAux, hsp', if_true, hwrev, Bool.false_eq_true, if_false]
      have hih := ih (fun u hu => hne u (by simp [hu])) (fun u hu => hsp u (by simp [hu]))
      unfold pySplit at hih
      rw [hih]
      simp

end EduMate

namespace EduMate

/-- A concrete dialogue string of exactly 14 whitespace-delimited words. -/
def fourteenWordInput : List Char := "a b c d e f g h i j k l m n".toList

/-- C6 (counterexample) — the claim "for every 14-word input the wrapped
output contains exactly one inserted line-break character" is false at this
concrete 14-word input: `add_line_breaks` appends `'\n'` after *every* 7th
word, so after word 7 and again after word 14, giving two newline characters
in the output. -/
theorem c6_counterexample :
    (pySplit fourteenWordInput).length = 14 ∧
    ¬ (add_line_breaks fourteenWordInput).count '\n' = 1 := by decide

/-- C6 (amended) — for every input of exactly 14 whitespace-delimited words,
the wrapped text contains exactly two line-break characters: one immediately
after the 7th word and one trailing immediately after the 14th word.
Formally: the output is `A ++ '\n' :: (B ++ ['\n'])` where `A` and `B` are
newline-free and re-splitting them yields words 1–7 and words 8–14
respectively. -/
theorem c6_fourteen_words_two_breaks (s : List Char)
    (h : (pySplit s).length = 14) :
    add_line_breaks s =
      joinSp ((pySplit s).take 7) ++ '\n' :: (joinSp ((pySplit s).drop 7) ++ ['\n']) ∧
    '\n' ∉ joinSp ((pySplit s).take 7) ∧
    '\n' ∉ joinSp ((pySplit s).drop 7) ∧
    pySplit (joinSp ((pySplit s).take 7)) = (pySplit s).take 7 ∧
    pySplit (joinSp ((pySplit s).drop 7)) = (pySplit s).drop 7 ∧
    (add_line_breaks s).count '\n' = 2 := by
  have hfree : ∀ w ∈ pySplit s, ∀ c ∈ w, pyIsSpace c = false := pySplit_no_space s
  have hne : ∀ w ∈ pySplit s, w ≠ [] := pySplit_ne_nil s
  have htake_len : ((pySplit s).take 7).length = 7 := by
    simp [List.length_take, h]
  have hdrop_len : ((pySplit s).drop 7).length = 7 := by
    simp [List.length_drop, h]
  have hfree_t : ∀ w ∈ (pySplit s).take 7, ∀ c ∈ w, pyIsSpace c = false :=
    fun w hw => hfree w (List.take_subset 7 _ hw)
  have hfree_d : ∀ w ∈ (pySplit s).drop 7, ∀ c ∈ w, pyIsSpace c = false :=
    fun w hw => hfree w (List.drop_subset 7 _ hw)
  have hne_t : ∀ w ∈ (pySplit s).take 7, w ≠ [] :=
    fun w hw => hne w (List.take_subset 7 _ hw)
  have hne_d : ∀ w ∈ (pySplit s).drop 7, w ≠ [] :=
    fun w hw => hne w (List.drop_subset 7 _ hw)
  have hnonnil_t : (pySplit s).take 7 ≠ [] := by
    intro hcon; rw [hcon] at htake_len; simp at htake_len
  have hnonnil_d : (pySplit s).drop 7 ≠ [] := by
    intro hcon; rw [hcon] at hdrop_len; simp at hdrop_len
  have hblock1 : addLineBreaksAux 0 ((pySplit s).take 7) =
      joinSp ((pySplit s).take 7) ++ ['\n'] :=
    addLineBreaksAux_block _ 0 hnonnil_t (by omega) (by rw [htake_len])
  have hblock2 : addLineBreaksAux 7 ((pySplit s).drop 7) =
      joinSp ((pySplit s).drop 7) ++ ['\n'] :=
    addLineBreaksAux_block _ 7 hnonnil_d (by omega) (by rw [hdrop_len])
  have hmain : add_line_breaks s =
      joinSp ((pySplit s).take 7) ++ '\n' :: (joinSp ((pySplit s).drop 7) ++ ['\n']) := by
    unfold add_line_breaks
    conv_lhs => rw [← List.take_append_drop 7 (pySplit s)]
    rw [addLineBreaksAux_append, htake_len, hblock1]
    norm_num
    rw [hblock2]
  have hnmA : '\n' ∉ joinSp ((pySplit s).take 7) := newline_not_mem_joinSp _ hfree_t
  have hnmB : '\n' ∉ joinSp ((pySplit s).drop 7) := newline_not_mem_joinSp _ hfree_d
  refine ⟨hmain, hnmA, hnmB, pySplit_joinSp _ hne_t hfree_t, pySplit_joinSp _ hne_d hfree_d, ?_⟩
  rw [hmain]
  have hA : (joinSp ((pySplit s).take 7)).count '\n' = 0 := List.count_eq_zero.mpr hnmA
  have hB : (joinSp ((pySplit s).drop 7)).count '\n' = 0 := List.count_eq_zero.mpr hnmB
  simp [List.count_append, List.count_cons, hA, hB]

/-- C6 (witness) — the amended theorem applied at the concrete 14-word
input. -/
theorem c6_fourteen_words_two_breaks_witness :
    (pySplit fourteenWordInput).length = 14 ∧
    (add_line_breaks fourteenWordInput).count '\n' = 2 :=
  ⟨by decide,
    (c6_fourteen_words_two_breaks fourteenWordInput (by decide)).2.2.2.2.2⟩

end EduMate

namespace EduMate

/-! ## `VisualGenerationAgent.execute` (agents.py 151–233)

The three backend calls the success path makes are fields of
`VisualBackends`; `Except.error e` models the Python call raising.  The `try`
body of `execute` (up to the construction of `result_data`) is
`visualTryBody`. -/

/-- One element of the `visual_prompts` list.  `character`, `dialogue` and
`similar_templates` are `none` on the poster entry, which does not carry those
keys in the Python dict. -/
structure VisualPrompt where
  type : String
  scene_number : Nat
  prompt : String
  character : Option String
  dialogue : Option String
  similar_templates : Option Nat
deriving DecidableEq

structure VisualBackends where
  generate_comic_poster_prompt : String → String → List String → Except String String
  search_character_templates : String → String → Except String (List String)
  generate_visual_prompt : String → String → String → String → Except String String

/-- The poster dict appended first by `execute`. -/
def posterEntry (poster_prompt : String) : VisualPrompt :=
  { type := "poster", prompt := poster_prompt, scene_number := 0,
    character := none, dialogue := none, similar_templates := none }

/-- The per-dialogue-line scene dict appended by the inner loop. -/
def sceneEntry (sc : Scene) (d : Dialogue) (vp : String) (templateCount : Nat) :
    VisualPrompt :=
  { type := "scene", scene_number := sc.scene_number,
    character := some d.character, dialogue := some d.dialogue,
    prompt := vp, similar_templates := some templateCount }

/-- The body of the inner `for dialogue_item in dialogues` loop: search
templates, build the scene context, generate the visual prompt, append the
scene entry. -/
def visualDialogueStep (b : VisualBackends) (visual_style topic : String)
    (scene : Scene) (acc : List VisualPrompt) (d : Dialogue) :
    Except String (List VisualPrompt) := do
  let templates ← b.search_character_templates (d.character ++ " " ++ d.dialogue) visual_style
  let scene_context :=
    "Scene " ++ toString scene.scene_number ++ " of educational comic about " ++ topic
  let vp ← b.generate_visual_prompt d.character d.dialogue scene_context visual_style
  pure (acc ++ [sceneEntry scene d vp templates.length])

/-- The `try` body of `VisualGenerationAgent.execute` up to `visual_prompts`:
poster prompt first (scene_number 0), then one scene entry per dialogue line
of each scene, in order. -/
def characterNames (characters : List (String × String)) : List String :=
  match characters with
  | [] => ["protagonist", "supporting character"]
  | _ => characters.map Prod.fst

def visualTryBody (b : VisualBackends) (scenes : List Scene)
    (characters : List (String × String)) (visual_style topic : String) :
    Except String (List VisualPrompt) := do
  let poster_prompt ← b.generate_comic_poster_prompt topic visual_style
    (characterNames characters)
  scenes.foldlM
    (fun acc scene => scene.dialogues.foldlM (visualDialogueStep b visual_style topic scene) acc)
    [posterEntry poster_prompt]

/-- Identity-relevant projection of a prompt entry. -/
def vpProj (vp : VisualPrompt) : String × Nat × Option String × Option String :=
  (vp.type, vp.scene_number, vp.character, vp.dialogue)

theorem foldDialogues_ok (b : VisualBackends) (visual_style topic : String) (sc : Scene) :
    ∀ (ds : List Dialogue) (acc out : List VisualPrompt),
      ds.foldlM (visualDialogueStep b visual_style topic sc) acc = Except.ok out →
      ∃ new, out = acc ++ new ∧
        new.map vpProj = ds.map
          (fun d => ("scene", sc.scene_number, some d.character, some d.dialogue)) := by
  intro ds
  induction ds with
  | nil =>
    intro acc out h
    simp only [List.foldlM_nil] at h
    refine ⟨[], ?_, by simp⟩
    simpa using (Except.ok.inj h).symm
  | cons d ds ih =>
    intro acc out h
    simp only [List.foldlM_cons] at h
    cases ht : b.search_character_templates (d.character ++ " " ++ d.dialogue) visual_style with
    | error e =>
      rw [visualDialogueStep] at h
      simp [ht, Bind.bind, Except.bind] at h
    | ok templates =>
      cases hv : b.generate_visual_prompt d.character d.dialogue
          ("Scene " ++ toString sc.scene_number ++ " of educational comic about " ++ topic)
          visual_style with
      | error e =>
        rw [visualDialogueStep] at h
        simp [ht, hv, Bind.bind, Except.bind] at h
      | ok vp =>
        have hstep : visualDialogueStep b visual_style topic sc acc d =
            Except.ok (acc ++ [sceneEntry sc d vp templates.length]) := by
          rw [visualDialogueStep]
          simp [ht, hv, Bind.bind, Except.bind, Pure.pure, Except.pure]
        rw [hstep] at h
        simp only [Bind.bind, Except.bind] at h
        obtain ⟨new, hout, hproj⟩ := ih _ out h
        refine ⟨sceneEntry sc d vp templates.length :: new, ?_, ?_⟩
        · rw [hout]; simp
        · simp [hproj, vpProj, sceneEntry]

theorem foldScenes_ok (b : VisualBackends) (visual_style topic : String) :
    ∀ (scs : List Scene) (acc out : List VisualPrompt),
      scs.foldlM
        (fun acc scene =>
          scene.dialogues.foldlM (visualDialogueStep b visual_style topic scene) acc)
        acc = Except.ok out →
      ∃ new, out = acc ++ new ∧
        new.map vpProj = scs.bind (fun sc => sc.dialogues.map
          (fun d => ("scene", sc.scene_number, some d.character, some d.dialogue))) := by
  intro scs
  induction scs with
  | nil =>
    intro acc out h
    simp only [List.foldlM_nil] at h
    refine ⟨[], ?_, by simp⟩
    simpa using (Except.ok.inj h).symm
  | cons sc scs ih =>
    intro acc out h
    simp only [List.foldlM_cons] at h
    cases hm : sc.dialogues.foldlM (visualDialogueStep b visual_style topic sc) acc with
    | error e =>
      rw [hm] at h
      simp [Bind.bind, Except.bind] at h
    | ok mid =>
      rw [hm] at h
      simp only [Bind.bind, Except.bind] at h
      obtain ⟨new1, hmid, hproj1⟩ := foldDialogues_ok b visual_style topic sc _ acc mid hm
      obtain ⟨new2, hout, hproj2⟩ := ih mid out h
      refine ⟨new1 ++ new2, ?_, ?_⟩
      · rw [hout, hmid, List.append_assoc]
      · simp [hproj1, hproj2, List.cons_bind]

/-- C9 — on success, the prompt list starts with exactly one poster entry
(`type = "poster"`, `scene_number = 0`), followed by exactly one scene-typed
entry per dialogue line, in original scene and dialogue order; its total
length is `1 +` the total dialogue-line count across all scenes (not `1 +`
the scene count). -/
theorem c9_visual_prompts_shape (b : VisualBackends) (scenes : List Scene)
    (characters : List (String × String)) (visual_style topic : String)
    (prompts : List VisualPrompt)
    (h : visualTryBody b scenes characters visual_style topic = Except.ok prompts) :
    prompts.length = 1 + (scenes.map (fun sc => sc.dialogues.length)).sum ∧
    prompts.head?.map (fun vp => (vp.type, vp.scene_number)) = some ("poster", 0) ∧
    prompts.tail.map vpProj = scenes.bind (fun sc => sc.dialogues.map
      (fun d => ("scene", sc.scene_number, some d.character, some d.dialogue))) := by
  rw [visualTryBody] at h
  cases hp : b.generate_comic_poster_prompt topic visual_style
      (characterNames characters) with
  | error e =>
    simp only [hp, Bind.bind, Except.bind] at h
    exact Except.noConfusion h
  | ok poster_prompt =>
    simp only [hp, Bind.bind, Except.bind] at h
    obtain ⟨new, hout, hproj⟩ := foldScenes_ok b visual_style topic scenes _ prompts h
    have hlen : new.length = (scenes.map (fun sc => sc.dialogues.length)).sum := by
      have h1 := congrArg List.length hproj
      rw [List.length_map, List.length_bind] at h1
      rw [h1]
      apply congrArg List.sum
      apply List.map_congr_left
      intro sc _
      simp
    refine ⟨?_, ?_, ?_⟩
    · rw [hout]
      simp only [List.length_append, List.length_cons, List.length_nil, hlen]
    · rw [hout]
      simp [posterEntry]
    · rw [hout]
      simpa using hproj

end EduMate

namespace EduMate

/-- Concrete visual backends in which every call succeeds. -/
def cvBackends : VisualBackends :=
  { generate_comic_poster_prompt := fun _ _ _ => Except.ok "poster prompt",
    search_character_templates := fun _ _ => Except.ok [],
    generate_visual_prompt := fun _ _ _ _ => Except.ok "scene prompt" }

def cvSceneOne : Scene :=
  { scene_number := 1,
    dialogues := [{ character := "A", dialogue := "hi" }, { character := "B", dialogue := "yo" }] }

def cvSceneTwo : Scene :=
  { scene_number := 2, dialogues := [{ character := "A", dialogue := "go" }] }

def cvScenes : List Scene := [cvSceneOne, cvSceneTwo]

def cvPrompts : List VisualPrompt :=
  [posterEntry "poster prompt",
   sceneEntry cvSceneOne { character := "A", dialogue := "hi" } "scene prompt" 0,
   sceneEntry cvSceneOne { character := "B", dialogue := "yo" } "scene prompt" 0,
   sceneEntry cvSceneTwo { character := "A", dialogue := "go" } "scene prompt" 0]

/-- C9 (witness) — the shape theorem applied at a concrete successful run
with 2 scenes carrying 2 and 1 dialogue lines: 1 + 3 prompts. -/
theorem c9_visual_prompts_shape_witness :
    visualTryBody cvBackends cvScenes [] "comic" "Solar System" = Except.ok cvPrompts ∧
    (cvPrompts.length = 1 + (cvScenes.map (fun sc => sc.dialogues.length)).sum ∧
     cvPrompts.head?.map (fun vp => (vp.type, vp.scene_number)) = some ("poster", 0) ∧
     cvPrompts.tail.map vpProj = cvScenes.bind (fun sc => sc.dialogues.map
       (fun d => ("scene", sc.scene_number, some d.character, some d.dialogue)))) :=
  ⟨by rfl,
   c9_visual_prompts_shape cvBackends cvScenes [] "comic" "Solar System" cvPrompts (by rfl)⟩

end EduMate

namespace EduMate

/-! ## `ContentIntelligenceAgent.execute` (agents.py 50–115)

The `try` block (lines 53–102) is `contentTryBody`; note that
`store_educational_content` is called *inside* the `try`, after the success
`AgentResult` has been built, and `log_execution` (line 114) runs *outside*
the `try`.  `Except.error e` models the Python call raising `e`. -/

/-- The `result_data` dict built on the success path, including the
`content_analysis` sub-dict. -/
structure CIResultData where
  educational_content : String
  characters : List (String × String)
  scenes : List Scene
  similar_content_found : Nat
  successful_patterns : Nat
  topic : String
  age_group : String
  language : String
  scene_count : Nat
  character_count : Nat
deriving DecidableEq

/-- The `AgentResult` dataclass, specialised to this agent's payload.
`execution_time_ms` is wall-clock time and is not modelled. -/
structure CIAgentResult where
  success : Bool
  data : Option CIResultData
  error_message : Option String
  step_number : Nat
deriving DecidableEq

/-- The backend calls made by `ContentIntelligenceAgent.execute`, including
the terminal `log_agent_execution` datastore write. -/
structure ContentBackends where
  search_similar_content : String → Except String (List String)
  get_successful_comic_patterns : Except String (List String)
  generate_educational_content : String → String → String → Except String String
  extract_character_info : String → Except String (List (String × String))
  store_educational_content : String → String → String → Except String Nat
  log_agent_execution : Except String Unit

/-- The `try` block of `execute`: the five steps, building `result_data`,
then the store call (still inside the `try`, so its failure aborts the
block). -/
def contentTryBody (b : ContentBackends) (topic age_group language : String) :
    Except String CIResultData := do
  let similar_content ← b.search_similar_content topic
  let successful_patterns ← b.get_successful_comic_patterns
  let educational_content ← b.generate_educational_content topic age_group language
  let characters ← b.extract_character_info educational_content
  let scenes := parse_educational_content educational_content
  let result_data : CIResultData :=
    { educational_content := educational_content, characters := characters,
      scenes := scenes,
      similar_content_found := similar_content.length,
      successful_patterns := successful_patterns.length,
      topic := topic, age_group := age_group, language := language,
      scene_count := scenes.length, character_count := characters.length }
  let _ ← b.store_educational_content topic educational_content age_group
  pure result_data

/-- `ContentIntelligenceAgent.execute`: the `try/except` converts a failing
body into a failure `AgentResult`; the final `log_execution` call is outside
the `try`, so if it raises, `execute` propagates the exception
(`Except.error`). -/
def contentExecute (b : ContentBackends) (topic age_group language : String)
    (step_number : Nat) : Except String CIAgentResult :=
  let result : CIAgentResult :=
    match contentTryBody b topic age_group language with
    | Except.ok rd =>
      { success := true, data := some rd, error_message := none, step_number := step_number }
    | Except.error e =>
      { success := false, data := none, error_message := some e, step_number := step_number }
  match b.log_agent_execution with
  | Except.ok _ => Except.ok result
  | Except.error e => Except.error e

/-- Backends in which every call succeeds except the terminal agent-log
write. -/
def c4Backends : ContentBackends :=
  { search_similar_content := fun _ => Except.ok [],
    get_successful_comic_patterns := Except.ok [],
    generate_educational_content := fun _ _ _ => Except.ok "SCENE 1\nA: hi",
    extract_character_info := fun _ => Except.ok [("A", "hero")],
    store_educational_content := fun _ _ _ => Except.ok 1,
    log_agent_execution := Except.error "db connection lost" }

/-- C4 (counterexample) — "execute never propagates an exception, for every
behaviour of the backends" is false: `log_execution` (agents.py line 114) runs
outside the `try/except`, so when the datastore's `log_agent_execution`
raises, `execute` propagates the exception to its caller. -/
theorem c4_counterexample :
    contentExecute c4Backends "Solar System" "child" "en" 1 =
      Except.error "db connection lost" := by rfl

/-- C4 (amended) — provided the terminal `log_agent_execution` write does not
raise, `execute` always returns normally: every failure inside the `try`
block is converted into a returned `AgentResult` with `success = false` and
the failure's message in `error_message`, and a successful body yields
`success = true` with the payload. -/
theorem c4_execute_returns_normally (b : ContentBackends)
    (topic age_group language : String) (step_number : Nat)
    (hlog : b.log_agent_execution = Except.ok ()) :
    contentExecute b topic age_group language step_number =
      Except.ok (match contentTryBody b topic age_group language with
        | Except.ok rd =>
          { success := true, data := some rd, error_message := none,
            step_number := step_number }
        | Except.error e =>
          { success := false, data := none, error_message := some e,
            step_number := step_number }) := by
  rw [contentExecute, hlog]

/-- Backends in which every call succeeds. -/
def c4OkBackends : ContentBackends :=
  { search_similar_content := fun _ => Except.ok [],
    get_successful_comic_patterns := Except.ok [],
    generate_educational_content := fun _ _ _ => Except.ok "SCENE 1\nA: hi",
    extract_character_info := fun _ => Except.ok [("A", "hero")],
    store_educational_content := fun _ _ _ => Except.ok 1,
    log_agent_execution := Except.ok () }

/-- C4 (witness) — the amended theorem at concrete all-succeeding
backends. -/
theorem c4_execute_returns_normally_witness :
    c4OkBackends.log_agent_execution = Except.ok () ∧
    contentExecute c4OkBackends "Solar System" "child" "en" 1 =
      Except.ok (match contentTryBody c4OkBackends "Solar System" "child" "en" with
        | Except.ok rd =>
          { success := true, data := some rd, error_message := none, step_number := 1 }
        | Except.error e =>
          { success := false, data := none, error_message := some e, step_number := 1 }) :=
  ⟨rfl, c4_execute_returns_normally c4OkBackends "Solar System" "child" "en" 1 rfl⟩

/-- Backends in which everything succeeds except the
`store_educational_content` write (agents.py lines 97–102). -/
def c5Backends : ContentBackends :=
  { search_similar_content := fun _ => Except.ok [],
    get_successful_comic_patterns := Except.ok [],
    generate_educational_content := fun _ _ _ => Except.ok "SCENE 1\nA: hi",
    extract_character_info := fun _ => Except.ok [("A", "hero")],
    store_educational_content := fun _ _ _ => Except.error "insert failed",
    log_agent_execution := Except.ok () }

/-- C5 (counterexample) — storing the script is *not* fire-and-forget: the
store call sits inside the `try` block, so when it raises, the `except`
handler replaces the already-built success result with a failure
`AgentResult`: the agent returns `success = false` and discards the computed
script/characters/scenes, contradicting the claim that it still returns
`success = true` with the payload. -/
theorem c5_counterexample :
    contentExecute c5Backends "Solar System" "child" "en" 1 =
      Except.ok { success := false, data := none,
                  error_message := some "insert failed", step_number := 1 } ∧
    ¬ ∃ rd, contentExecute c5Backends "Solar System" "child" "en" 1 =
        Except.ok { success := true, data := some rd,
                    error_message := none, step_number := 1 } := by
  refine ⟨rfl, ?_⟩
  rintro ⟨rd, hrd⟩
  rw [show contentExecute c5Backends "Solar System" "child" "en" 1 =
      Except.ok { success := false, data := none,
                  error_message := some "insert failed", step_number := 1 } from rfl] at hrd
  have := Except.ok.inj hrd
  simp at this

/-- C5 (amended) — if the five steps of the `try` block succeed but the
`store_educational_content` write raises, the agent returns (normally,
provided the terminal log write succeeds) a *failure* `AgentResult`:
`success = false`, `data = none` (the computed script is discarded) and the
store failure's message in `error_message`. -/
theorem c5_store_failure_fails_agent (b : ContentBackends)
    (topic age_group language : String) (step_number : Nat)
    (sim pat : List String) (content : String)
    (chars : List (String × String)) (e : String)
    (h1 : b.search_similar_content topic = Except.ok sim)
    (h2 : b.get_successful_comic_patterns = Except.ok pat)
    (h3 : b.generate_educational_content topic age_group language = Except.ok content)
    (h4 : b.extract_character_info content = Except.ok chars)
    (h5 : b.store_educational_content topic content age_group = Except.error e)
    (hlog : b.log_agent_execution = Except.ok ()) :
    contentExecute b topic age_group language step_number =
      Except.ok { success := false, data := none,
                  error_message := some e, step_number := step_number } := by
  have htb : contentTryBody b topic age_group language = Except.error e := by
    rw [contentTryBody]
    simp [h1, h2, h3, h4, h5, Bind.bind, Except.bind]
  rw [contentExecute, htb, hlog]

/-- C5 (witness) — the amended theorem at the concrete failing-store
backends. -/
theorem c5_store_failure_fails_agent_witness :
    c5Backends.store_educational_content "Solar System" "SCENE 1\nA: hi" "child" =
      Except.error "insert failed" ∧
    contentExecute c5Backends "Solar System" "child" "en" 1 =
      Except.ok { success := false, data := none,
                  error_message := some "insert failed", step_number := 1 } :=
  ⟨rfl, c5_store_failure_fails_agent c5Backends "Solar System" "child" "en" 1
    [] [] "SCENE 1\nA: hi" [("A", "hero")] "insert failed" rfl rfl rfl rfl rfl rfl⟩

end EduMate

namespace EduMate

/-! ## `MultiStepAgentOrchestrator.execute_workflow` (agents.py 451–554)

Each of the four agents has the same `execute` shape as
`ContentIntelligenceAgent.execute` above: it returns an `AgentResult` and, as
its final action, appends exactly one agent-log row (status `success` or
`error` according to the result).  At the orchestration layer we therefore
model agent `k`'s invocation by a success oracle `outcome : Nat → Bool`
together with that one log row.  Datastore writes (`log_comic_generation`,
`update_comic_generation_status`, `log_agent_execution`) are modelled as
events appended to an explicit trace and are assumed not to raise — the
claims quantify over agent outcomes, not datastore faults.  The internal
`raise Exception(...)`/`except` control flow of `execute_workflow` is
mirrored by `workflowBody` returning `some errorMessage` for a raised
exception, caught by `execute_workflow`. -/

/-- The status values written to the `comic_generations` row. -/
inductive GenStatus
  | processing
  | completed
  | failed
deriving DecidableEq

/-- One `agent_logs` row (the fields the claims are about). -/
structure WfLogEntry where
  agent_name : String
  step_number : Nat
  log_status : String
deriving DecidableEq

/-- Trace of datastore writes for one `comic_generations` record. -/
structure WfState where
  logs : List WfLogEntry
  status_writes : List GenStatus
deriving DecidableEq

/-- What `execute_workflow` returns to its caller, restricted to the fields
the claims mention: whether the mapping carries an `'error'` key and the
`execution_summary.status` value. -/
structure WorkflowResult where
  has_error_key : Bool
  error_message : Option String
  summary_status : String
deriving DecidableEq

/-- One agent invocation: run agent `k` (success per `outcome k`) and append
its single agent-log row. -/
def runAgent (st : WfState) (name : String) (k : Nat) (outcome : Nat → Bool) :
    Bool × WfState :=
  (outcome k,
   { st with logs := st.logs ++
      [{ agent_name := name, step_number := k,
         log_status := if outcome k then "success" else "error" }] })

/-- The `try` block of `execute_workflow`: the four sequential agent steps;
`raise Exception(...)` on the first failure (returning `some msg` with the
state reached so far); the `completed` status write on full success. -/
def workflowBody (outcome : Nat → Bool) (st0 : WfState) : Option String × WfState :=
  let r1 := runAgent st0 "ContentIntelligenceAgent" 1 outcome
  if !r1.1 then (some "Content Intelligence Agent failed", r1.2) else
  let r2 := runAgent r1.2 "EducationalPlanningAgent" 2 outcome
  if !r2.1 then (some "Educational Planning Agent failed", r2.2) else
  let r3 := runAgent r2.2 "VisualGenerationAgent" 3 outcome
  if !r3.1 then (some "Visual Generation Agent failed", r3.2) else
  let r4 := runAgent r3.2 "QualityAssuranceAgent" 4 outcome
  if !r4.1 then (some "Quality Assurance Agent failed", r4.2) else
  (none, { r4.2 with status_writes := r4.2.status_writes ++ [GenStatus.completed] })

/-- `execute_workflow`: create the generation record with status
`processing`, run the `try` block, and in the `except` handler write status
`failed` and return an `'error'`-keyed result instead of raising. -/
def execute_workflow (outcome : Nat → Bool) : WorkflowResult × WfState :=
  let st0 : WfState := { logs := [], status_writes := [GenStatus.processing] }
  match workflowBody outcome st0 with
  | (none, st) =>
    ({ has_error_key := false, error_message := none, summary_status := "completed" }, st)
  | (some e, st) =>
    ({ has_error_key := true, error_message := some e, summary_status := "failed" },
     { st with status_writes := st.status_writes ++ [GenStatus.failed] })

/-- C1 — if any of the four agents fails (returns `success = false` when
invoked), then: no agent with a higher step number than the failing one is
ever executed, the terminal status persisted for the generation record is
`failed`, and the mapping returned (normally — the model of the `except`
handler, not a raise) carries an `'error'` key with a message. -/
theorem c1_failure_halts_workflow (outcome : Nat → Bool) (k : Nat)
    (hk1 : 1 ≤ k) (hk4 : k ≤ 4) (hfail : outcome k = false) :
    (execute_workflow outcome).1.has_error_key = true ∧
    (execute_workflow outcome).1.error_message.isSome = true ∧
    (execute_workflow outcome).1.summary_status = "failed" ∧
    (execute_workflow outcome).2.status_writes.getLast? = some GenStatus.failed ∧
    ∀ e ∈ (execute_workflow outcome).2.logs, e.step_number ≤ k := by
  interval_cases k <;>
    rcases h1 : outcome 1 <;> rcases h2 : outcome 2 <;>
    rcases h3 : outcome 3 <;> rcases h4 : outcome 4 <;>
    simp_all [execute_workflow, workflowBody, runAgent]

/-- C1 (witness) — agent 2 fails: the workflow stops after step 2, persists
`failed`, and returns an error-keyed mapping. -/
theorem c1_failure_halts_workflow_witness :
    (1 : Nat) ≤ 2 ∧ (2 : Nat) ≤ 4 ∧ (fun k => decide (k = 1)) 2 = false ∧
    ((execute_workflow (fun k => decide (k = 1))).1.has_error_key = true ∧
     (execute_workflow (fun k => decide (k = 1))).1.error_message.isSome = true ∧
     (execute_workflow (fun k => decide (k = 1))).1.summary_status = "failed" ∧
     (execute_workflow (fun k => decide (k = 1))).2.status_writes.getLast? =
       some GenStatus.failed ∧
     ∀ e ∈ (execute_workflow (fun k => decide (k = 1))).2.logs, e.step_number ≤ 2) :=
  ⟨by decide, by decide, by decide,
   c1_failure_halts_workflow (fun k => decide (k = 1)) 2 (by decide) (by decide) (by decide)⟩

/-- C2 — for every combination of agent outcomes, the generation record is
created with status `processing` and the last status written is exactly
`completed` or `failed`; it is never left at `processing`. -/
theorem c2_terminal_status (outcome : Nat → Bool) :
    (execute_workflow outcome).2.status_writes.head? = some GenStatus.processing ∧
    ((execute_workflow outcome).2.status_writes.getLast? = some GenStatus.completed ∨
     (execute_workflow outcome).2.status_writes.getLast? = some GenStatus.failed) := by
  rcases h1 : outcome 1 <;> rcases h2 : outcome 2 <;>
    rcases h3 : outcome 3 <;> rcases h4 : outcome 4 <;>
    simp_all [execute_workflow, workflowBody, runAgent]

/-- C3 — a full run in which all four agents succeed produces exactly 4
agent-log rows, one per agent, whose step numbers are `[1, 2, 3, 4]` — in
particular pairwise distinct and exactly the set `{1, 2, 3, 4}`. -/
theorem c3_four_log_entries (outcome : Nat → Bool)
    (h1 : outcome 1 = true) (h2 : outcome 2 = true)
    (h3 : outcome 3 = true) (h4 : outcome 4 = true) :
    (execute_workflow outcome).2.logs.length = 4 ∧
    (execute_workflow outcome).2.logs.map WfLogEntry.step_number = [1, 2, 3, 4] := by
  simp_all [execute_workflow, workflowBody, runAgent]

/-- C3 (witness) — the all-success run. -/
theorem c3_four_log_entries_witness :
    (fun _ => true) 1 = true ∧
    ((execute_workflow (fun _ => true)).2.logs.length = 4 ∧
     (execute_workflow (fun _ => true)).2.logs.map WfLogEntry.step_number = [1, 2, 3, 4]) :=
  ⟨rfl, c3_four_log_entries (fun _ => true) rfl rfl rfl rfl⟩

end EduMate

namespace EduMate

/-! ## Rendering driver assembly (`GenerateComicAgentic.start`, lines 302–388)

`self.generated_images_paths` is a Python dict from scene_number to an image
path, written once by the poster branch (key 0) and once per distinct
scene_number by the concurrent scene tasks.  Each task writes only its own
key and the driver barrier-joins before reading the dict, so any
serialisation of the writes yields the same dict; we model it as an
association list built by `dictSet` (Python dict assignment: overwrite in
place, else append).  `sceneRender k = none` models a task that crashed
before writing its key (its `process_comic_page` returned `None` without
assigning). -/

/-- Python dict assignment `m[k] = v`: replace in place if the key exists,
else append keeping insertion order. -/
def dictSet (m : List (Nat × Option String)) (k : Nat) (v : Option String) :
    List (Nat × Option String) :=
  if m.any (fun p => p.1 == k) then
    m.map (fun p => if p.1 == k then (k, v) else p)
  else m ++ [(k, v)]

/-- First-appearance-order distinct keys, as produced by the
`scene_prompt_map` grouping loop (lines 330–335). -/
def insertKey (ks : List Nat) (k : Nat) : List Nat :=
  if k ∈ ks then ks else ks ++ [k]

def distinctKeys (l : List Nat) : List Nat := l.foldl insertKey []

/-- One scene task's effect on the dict: write its path under its
scene_number, or write nothing if the task failed before the assignment. -/
def renderStep (sceneRender : Nat → Option String)
    (m : List (Nat × Option String)) (k : Nat) : List (Nat × Option String) :=
  match sceneRender k with
  | some p => dictSet m k (some p)
  | none => m

/-- `self.generated_images_paths` after the poster branch and the barrier
join of the scene tasks: key 0 holds the poster path when a poster prompt
exists (the poster branch, when it runs, always assigns a path), and each
distinct scene_number among the scene prompts holds its task's path when the
task produced one. -/
def posterSeed (prompts : List VisualPrompt) (posterPath : String) :
    List (Nat × Option String) :=
  if (prompts.filter (fun vp => vp.type == "poster")).isEmpty then []
  else dictSet [] 0 (some posterPath)

def buildImagePaths (prompts : List VisualPrompt) (posterPath : String)
    (sceneRender : Nat → Option String) : List (Nat × Option String) :=
  (distinctKeys ((prompts.filter (fun vp => vp.type == "scene")).map
      VisualPrompt.scene_number)).foldl (renderStep sceneRender)
    (posterSeed prompts posterPath)

/-- Key order used by `sorted(self.generated_images_paths.items())` (keys are
pairwise distinct, so the second tuple components are never compared). -/
def keyLE (p q : Nat × Option String) : Prop := p.1 ≤ q.1

instance : DecidableRel keyLE := fun p q => Nat.decLe p.1 q.1

instance : IsTotal (Nat × Option String) keyLE := ⟨fun a b => Nat.le_total a.1 b.1⟩

instance : IsTrans (Nat × Option String) keyLE := ⟨fun _ _ _ => Nat.le_trans⟩

/-- `dict(sorted(self.generated_images_paths.items()))` (line 361). -/
def sortByKey (m : List (Nat × Option String)) : List (Nat × Option String) :=
  m.insertionSort keyLE

/-- `list(...values())` of the sorted dict followed by the `None` filter
(lines 362–365). -/
def survivingPaths (m : List (Nat × Option String)) : List String :=
  ((sortByKey m).map Prod.snd).filterMap id

/-- The surviving entries with their keys, in sorted order (used to state the
page-ordering property). -/
def assembledEntries (m : List (Nat × Option String)) : List (Nat × String) :=
  (sortByKey m).filterMap (fun p =>
    match p.2 with
    | some v => some (p.1, v)
    | none => none)

/-- The output document: one page per image, in list order. -/
structure PdfDocument where
  pages : List String
deriving DecidableEq

/-- `convert_images_to_pdf` (lines 140–154): `images[0].save(..., save_all,
append_images=images[1:])` — one page per image in order; on an empty list
the Python indexing raises, wrapped into the conversion error. -/
def convert_images_to_pdf (images : List String) : Except String PdfDocument :=
  match images with
  | [] => Except.error "Error occurred during image to PDF conversion: list index out of range"
  | first :: rest => Except.ok { pages := first :: rest }

/-- The assembly tail of `start` (lines 361–384): sort, drop `None`s, build
the document when anything survives, else raise the fatal
`"No images were generated successfully"` (caught by `start`'s outer
`except`, which returns an error value instead of raising). -/
def assembleDocument (m : List (Nat × Option String)) : Except String PdfDocument :=
  if (survivingPaths m).isEmpty then
    Except.error "No images were generated successfully"
  else convert_images_to_pdf (survivingPaths m)

end EduMate

namespace EduMate

theorem survivingPaths_eq_nil_iff (m : List (Nat × Option String)) :
    survivingPaths m = [] ↔ ∀ p ∈ m, p.2 = none := by
  unfold survivingPaths
  rw [List.filterMap_eq_nil]
  constructor
  · intro h p hp
    have hmem : p ∈ sortByKey m := ((List.perm_insertionSort keyLE m).mem_iff).mpr hp
    simpa using h p.2 (List.mem_map_of_mem Prod.snd hmem)
  · intro h x hx
    obtain ⟨p, hp, rfl⟩ := List.mem_map.mp hx
    simpa using h p ((List.perm_insertionSort keyLE m).mem_iff.mp hp)

/-- C7 — after rendering, if every recorded image slot is `None` the driver
does not assemble a document: it fails with the explicit
`"No images were generated successfully"` error condition (raised and caught
by `start`'s outer handler); if any path survives, the document is
assembled, with the surviving paths as its pages. -/
theorem c7_no_images_fatal (m : List (Nat × Option String)) :
    ((∀ p ∈ m, p.2 = none) →
      assembleDocument m = Except.error "No images were generated successfully") ∧
    ((∃ p ∈ m, p.2 ≠ none) →
      ∃ doc, assembleDocument m = Except.ok doc ∧ doc.pages = survivingPaths m) := by
  constructor
  · intro h
    have hnil : survivingPaths m = [] := (survivingPaths_eq_nil_iff m).mpr h
    rw [assembleDocument]
    simp [hnil]
  · rintro ⟨p, hp, hpn⟩
    have hne : survivingPaths m ≠ [] := by
      intro hnil
      exact hpn ((survivingPaths_eq_nil_iff m).mp hnil p hp)
    rw [assembleDocument]
    cases hs : survivingPaths m with
    | nil => exact absurd hs hne
    | cons f r =>
      refine ⟨{ pages := f :: r }, ?_, by simp⟩
      simp [hs, convert_images_to_pdf]

/-- C7 (witness) — an all-`None` slot map fails with the explicit error; a
map with one surviving path assembles a document. -/
theorem c7_no_images_fatal_witness :
    assembleDocument [(1, none), (2, none)] =
      Except.error "No images were generated successfully" ∧
    ∃ doc, assembleDocument [(0, some "poster.png"), (2, none)] = Except.ok doc ∧
      doc.pages = survivingPaths [(0, some "poster.png"), (2, none)] :=
  ⟨(c7_no_images_fatal [(1, none), (2, none)]).1 (by decide),
   (c7_no_images_fatal [(0, some "poster.png"), (2, none)]).2 (by decide)⟩

end EduMate

namespace EduMate

theorem keys_dictSet (m : List (Nat × Option String)) (k : Nat) (v : Option String) :
    (dictSet m k v).map Prod.fst = m.map Prod.fst ∨
    ((dictSet m k v).map Prod.fst = m.map Prod.fst ++ [k] ∧ k ∉ m.map Prod.fst) := by
  unfold dictSet
  by_cases h : m.any (fun p => p.1 == k) = true
  · rw [if_pos h]
    left
    rw [List.map_map]
    apply List.map_congr_left
    intro p _
    simp only [Function.comp_apply]
    by_cases hp : (p.1 == k) = true
    · rw [if_pos hp]
      exact (by simpa using hp : p.1 = k).symm
    · rw [if_neg hp]
  · rw [if_neg h]
    right
    refine ⟨by simp, ?_⟩
    intro hk
    obtain ⟨p, hp, hpk⟩ := List.mem_map.mp hk
    have : m.any (fun p => p.1 == k) = true :=
      List.any_eq_true.mpr ⟨p, hp, by simp [hpk]⟩
    exact h this

theorem nodupKeys_dictSet (m : List (Nat × Option String)) (k : Nat) (v : Option String)
    (h : (m.map Prod.fst).Nodup) : ((dictSet m k v).map Prod.fst).Nodup := by
  rcases keys_dictSet m k v with heq | ⟨heq, hnk⟩
  · rwa [heq]
  · rw [heq]
    simp [List.nodup_append, h, hnk]

theorem length_dictSet_le (m : List (Nat × Option String)) (k : Nat) (v : Option String) :
    (dictSet m k v).length ≤ m.length + 1 := by
  unfold dictSet
  by_cases h : m.any (fun p => p.1 == k) = true
  · rw [if_pos h]
    simp
  · rw [if_neg h]
    simp

theorem nodupKeys_renderStep (r : Nat → Option String) (m : List (Nat × Option String))
    (k : Nat) (h : (m.map Prod.fst).Nodup) :
    ((renderStep r m k).map Prod.fst).Nodup := by
  unfold renderStep
  cases r k with
  | none => exact h
  | some p => exact nodupKeys_dictSet m k (some p) h

theorem length_renderStep_le (r : Nat → Option String) (m : List (Nat × Option String))
    (k : Nat) : (renderStep r m k).length ≤ m.length + 1 := by
  unfold renderStep
  cases r k with
  | none => simp
  | some p => exact length_dictSet_le m k (some p)

theorem nodupKeys_foldl_renderStep (r : Nat → Option String) :
    ∀ (ks : List Nat) (m : List (Nat × Option String)),
      (m.map Prod.fst).Nodup → (((ks.foldl (renderStep r) m)).map Prod.fst).Nodup := by
  intro ks
  induction ks with
  | nil => intro m h; exact h
  | cons k ks ih =>
    intro m h
    rw [List.foldl_cons]
    exact ih _ (nodupKeys_renderStep r m k h)

theorem length_foldl_renderStep_le (r : Nat → Option String) :
    ∀ (ks : List Nat) (m : List (Nat × Option String)),
      (ks.foldl (renderStep r) m).length ≤ m.length + ks.length := by
  intro ks
  induction ks with
  | nil => intro m; simp
  | cons k ks ih =>
    intro m
    rw [List.foldl_cons]
    have h1 := ih (renderStep r m k)
    have h2 := length_renderStep_le r m k
    simp only [List.length_cons]
    omega

theorem nodupKeys_posterSeed (prompts : List VisualPrompt) (posterPath : String) :
    ((posterSeed prompts posterPath).map Prod.fst).Nodup := by
  unfold posterSeed
  by_cases h : (prompts.filter (fun vp => vp.type == "poster")).isEmpty = true
  · rw [if_pos h]; simp
  · rw [if_neg h]; simp [dictSet]

theorem length_posterSeed_le (prompts : List VisualPrompt) (posterPath : String) :
    (posterSeed prompts posterPath).length ≤ 1 := by
  unfold posterSeed
  by_cases h : (prompts.filter (fun vp => vp.type == "poster")).isEmpty = true
  · rw [if_pos h]; simp
  · rw [if_neg h]; simp [dictSet]

theorem nodupKeys_buildImagePaths (prompts : List VisualPrompt) (posterPath : String)
    (r : Nat → Option String) :
    ((buildImagePaths prompts posterPath r).map Prod.fst).Nodup := by
  unfold buildImagePaths
  exact nodupKeys_foldl_renderStep r _ _ (nodupKeys_posterSeed prompts posterPath)

theorem length_survivingPaths_le (m : List (Nat × Option String)) :
    (survivingPaths m).length ≤ m.length := by
  unfold survivingPaths
  have h1 : (((sortByKey m).map Prod.snd).filterMap id).length ≤
      ((sortByKey m).map Prod.snd).length := List.length_filterMap_le _ _
  have h2 : ((sortByKey m).map Prod.snd).length = (sortByKey m).length :=
    List.length_map _ _
  have h3 : (sortByKey m).length = m.length :=
    (List.perm_insertionSort keyLE m).length_eq
  omega

theorem pairwise_lt_sortByKey (m : List (Nat × Option String))
    (h : (m.map Prod.fst).Nodup) :
    (sortByKey m).Pairwise (fun p q => p.1 < q.1) := by
  have hs : (sortByKey m).Pairwise keyLE := List.sorted_insertionSort keyLE m
  have hperm : List.Perm ((sortByKey m).map Prod.fst) (m.map Prod.fst) :=
    (List.perm_insertionSort keyLE m).map Prod.fst
  have hnd : ((sortByKey m).map Prod.fst).Nodup := hperm.nodup_iff.mpr h
  have hne : (sortByKey m).Pairwise (fun p q => p.1 ≠ q.1) := List.pairwise_map.mp hnd
  exact (hs.and hne).imp (fun hab => lt_of_le_of_ne hab.1 hab.2)

theorem pairwise_lt_assembledEntries (m : List (Nat × Option String))
    (h : (m.map Prod.fst).Nodup) :
    (assembledEntries m).Pairwise (fun p q => p.1 < q.1) := by
  unfold assembledEntries
  rw [List.pairwise_filterMap]
  refine (pairwise_lt_sortByKey m h).imp ?_
  intro a b hab c hc d hd
  cases ha : a.2 with
  | none => rw [ha] at hc; simp at hc
  | some va =>
    rw [ha] at hc
    cases hb : b.2 with
    | none => rw [hb] at hd; simp at hd
    | some vb =>
      rw [hb] at hd
      simp only [Option.mem_def, Option.some.injEq] at hc hd
      subst hc
      subst hd
      simpa using hab

theorem survivingPaths_eq_assembled (m : List (Nat × Option String)) :
    survivingPaths m = (assembledEntries m).map Prod.snd := by
  unfold survivingPaths assembledEntries
  generalize sortByKey m = l
  induction l with
  | nil => rfl
  | cons p t ih =>
    cases hp : p.2 with
    | none => simpa [List.filterMap_cons, hp] using ih
    | some v => simpa [List.filterMap_cons, hp] using ih

/-- C8 — for any prompt list, poster path and per-scene rendering outcome:
the surviving page list has length at most `N + 1` where `N` is the number of
distinct scene numbers among the scene-typed prompts; the surviving entries
are strictly ascending in scene_number, with key 0 (the poster slot) first
whenever it survives; and whenever a document is assembled its pages are
exactly the surviving paths — scenes whose task produced no path are simply
omitted and do not block assembly. -/
theorem c8_assembly_bounded_ordered (prompts : List VisualPrompt)
    (posterPath : String) (sceneRender : Nat → Option String) :
    (survivingPaths (buildImagePaths prompts posterPath sceneRender)).length ≤
      (distinctKeys ((prompts.filter (fun vp => vp.type == "scene")).map
        VisualPrompt.scene_number)).length + 1 ∧
    (assembledEntries (buildImagePaths prompts posterPath sceneRender)).Pairwise
      (fun p q => p.1 < q.1) ∧
    survivingPaths (buildImagePaths prompts posterPath sceneRender) =
      (assembledEntries (buildImagePaths prompts posterPath sceneRender)).map Prod.snd ∧
    (∀ pth, (0, pth) ∈ assembledEntries (buildImagePaths prompts posterPath sceneRender) →
      (assembledEntries (buildImagePaths prompts posterPath sceneRender)).head?.map
        Prod.fst = some 0) ∧
    (∀ doc, assembleDocument (buildImagePaths prompts posterPath sceneRender) =
        Except.ok doc →
      doc.pages = survivingPaths (buildImagePaths prompts posterPath sceneRender)) := by
  have hnd := nodupKeys_buildImagePaths prompts posterPath sceneRender
  refine ⟨?_, pairwise_lt_assembledEntries _ hnd, survivingPaths_eq_assembled _, ?_, ?_⟩
  · have h1 := length_survivingPaths_le (buildImagePaths prompts posterPath sceneRender)
    have h2 : (buildImagePaths prompts posterPath sceneRender).length ≤
        (distinctKeys ((prompts.filter (fun vp => vp.type == "scene")).map
          VisualPrompt.scene_number)).length + 1 := by
      unfold buildImagePaths
      have h3 := length_foldl_renderStep_le sceneRender
        (distinctKeys ((prompts.filter (fun vp => vp.type == "scene")).map
          VisualPrompt.scene_number)) (posterSeed prompts posterPath)
      have h4 := length_posterSeed_le prompts posterPath
      omega
    omega
  · intro pth hp
    have hpw := pairwise_lt_assembledEntries _ hnd
    cases hl : assembledEntries (buildImagePaths prompts posterPath sceneRender) with
    | nil => rw [hl] at hp; simp at hp
    | cons q t =>
      rw [hl] at hp hpw
      rcases List.mem_cons.mp hp with hq | ht
      · rw [← hq]
        simp
      · have := (List.pairwise_cons.mp hpw).1 (0, pth) ht
        simp at this
  · intro doc hdoc
    rw [assembleDocument] at hdoc
    cases hs : survivingPaths (buildImagePaths prompts posterPath sceneRender) with
    | nil => rw [hs] at hdoc; simp at hdoc
    | cons f r =>
      rw [hs] at hdoc
      simp [convert_images_to_pdf] at hdoc
      rw [← hdoc]

/-- A concrete per-scene rendering outcome: scene 1 succeeds, everything else
fails. -/
def cwRender (k : Nat) : Option String := if k == 1 then some "s1.png" else none

/-- C8 (witness) — the bound, ordering, poster-first and page facts at the
concrete prompt list `cvPrompts` (scenes 1, 1, 2), with scene 2's task
producing no path. -/
theorem c8_assembly_bounded_ordered_witness :
    (survivingPaths (buildImagePaths cvPrompts "poster.png" cwRender)).length ≤
      (distinctKeys ((cvPrompts.filter (fun vp => vp.type == "scene")).map
        VisualPrompt.scene_number)).length + 1 ∧
    (assembledEntries (buildImagePaths cvPrompts "poster.png" cwRender)).head?.map
      Prod.fst = some 0 ∧
    ∀ doc, assembleDocument (buildImagePaths cvPrompts "poster.png" cwRender) =
        Except.ok doc →
      doc.pages = survivingPaths (buildImagePaths cvPrompts "poster.png" cwRender) :=
  ⟨(c8_assembly_bounded_ordered cvPrompts "poster.png" cwRender).1,
   (c8_assembly_bounded_ordered cvPrompts "poster.png" cwRender).2.2.2.1
     "poster.png" (by decide),
   (c8_assembly_bounded_ordered cvPrompts "poster.png" cwRender).2.2.2.2⟩

end EduMate
